import Mathlib

/-!
Verification of the normalization and scoring core of the
zyvro-product-finder repository (src/app.py and
src/amazon_winning_products.py).

The embedding models the Python values flowing through
`get_live_data` (src/app.py lines 93-129) and `compute_winning_score`
(src/app.py lines 134-141) as an inductive `Val` type, the per-record
loop body of `get_live_data` as `normalize_item`, and the winning-score
computation as `compute_winning_score` over the reals.
-/

/-- A Python value as it appears in the JSON payloads handled by the
program: `None`, a number (modelled as a rational), a string, a dict
(association list) or a list. -/
inductive Val where
  | none : Val
  | num  : ℚ → Val
  | str  : String → Val
  | dict : List (String × Val) → Val
  | list : List Val → Val

/-- Python truthiness (`bool(v)`): `None` is falsy, a number is truthy
iff nonzero, a string iff non-empty, a dict or list iff non-empty. -/
def Val.truthy : Val → Bool
  | .none => false
  | .num q => decide (q ≠ 0)
  | .str s => decide (s ≠ "")
  | .dict l => !l.isEmpty
  | .list l => !l.isEmpty

/-- Python `d.get(k, default)` on a dict represented as an association
list: the first value stored under `k`, or `default` when the key is
absent (a stored `None` is returned, not replaced by the default). -/
def dictGet (l : List (String × Val)) (k : String) (default : Val) : Val :=
  match l.find? (fun kv => kv.1 == k) with
  | some kv => kv.2
  | Option.none => default

/-- Python `v or 0`: `v` when truthy, the number `0` otherwise
(src/app.py lines 135-137). -/
def Val.orZero (v : Val) : Val :=
  if v.truthy then v else .num 0

/-- The error a per-record normalization step can raise: calling
`.get` on a non-dict value raises `AttributeError` in Python. -/
inductive PyErr where
  | attributeError : PyErr

/-- The product record appended by `get_live_data` (src/app.py lines
121-128): a dict with exactly these six keys, kept as raw `Val`s. -/
structure Product where
  title : Val
  price : Val
  rating : Val
  reviews : Val
  link : Val
  thumbnail : Val

/-- src/app.py lines 115-116: `price_info = item.get("price", {})`
followed by `price = price_info.get("value", 0)`.  When the stored
price is not a dict (e.g. `None` or a bare number), the second `.get`
raises `AttributeError`. -/
def extractPrice (item : Val) : Except PyErr Val :=
  match item with
  | .dict l =>
    match dictGet l "price" (.dict []) with
    | .dict pl => .ok (dictGet pl "value" (.num 0))
    | _ => .error .attributeError
  | _ => .error .attributeError

/-- The body of the `for item in data.get("search_results", [])[:n]`
loop of `get_live_data` (src/app.py lines 112-128): extract the six
fields with their defaults, and append the product exactly when
`title and price` is truthy.  Returns `.ok Option.none` when the record
is filtered out, `.ok (some p)` when appended, `.error` when the
field extraction raises. -/
def normalize_item (item : Val) : Except PyErr (Option Product) :=
  match item with
  | .dict l =>
    let title := dictGet l "title" .none
    let link := dictGet l "link" .none
    match dictGet l "price" (.dict []) with
    | .dict pl =>
      let price := dictGet pl "value" (.num 0)
      let rating := dictGet l "rating" (.num 0)
      let reviews := dictGet l "reviews" (.num 0)
      let thumbnail := dictGet l "image" (.str "")
      if title.truthy && price.truthy then
        .ok (some ⟨title, price, rating, reviews, link, thumbnail⟩)
      else
        .ok Option.none
    | _ => .error .attributeError
  | _ => .error .attributeError

/-- The whole loop of src/app.py lines 111-128 over a list of raw
records: products of successfully kept records in input order; an
exception in any record aborts the loop (there is no try/except around
it in the source). -/
def normalize_all : List Val → Except PyErr (List Product)
  | [] => .ok []
  | i :: rest =>
    match normalize_item i, normalize_all rest with
    | .error e, _ => .error e
    | .ok _, .error e => .error e
    | .ok (some p), .ok ps => .ok (p :: ps)
    | .ok Option.none, .ok ps => .ok ps

/-- The record-processing part of `get_live_data` (src/app.py lines
111-129): the first `n` raw search results pass through the
normalization loop. -/
def get_live_data (items : List Val) (n : Nat) : Except PyErr (List Product) :=
  normalize_all (items.take n)

/-- The scoring heuristic `(r * math.log1p(rev)) / (p + 1)` of
src/app.py line 139, over the reals. -/
noncomputable def score (r rev p : ℝ) : ℝ :=
  (r * Real.log (1 + rev)) / (p + 1)

/-- The arithmetic of `compute_winning_score` (src/app.py lines
138-141) on the three (already `or 0`-defaulted) field values.  When
all three are numbers, `math.log1p` raises `ValueError` for
`1 + rev ≤ 0` and the division raises `ZeroDivisionError` for
`p + 1 = 0`; any non-numeric operand raises `TypeError`.  Every such
exception is absorbed by the bare `except` into `0.0`. -/
noncomputable def scoreOfVals : Val → Val → Val → ℝ
  | .num r, .num rev, .num p =>
    if 1 + (rev : ℝ) ≤ 0 then 0
    else if (p : ℝ) + 1 = 0 then 0
    else score (r : ℝ) (rev : ℝ) (p : ℝ)
  | _, _, _ => 0

/-- The function `compute_winning_score(row)` of src/app.py lines
134-141: each of rating, reviews, price is defaulted with `or 0`, then
the heuristic is computed, any exception yielding `0.0`. -/
noncomputable def compute_winning_score (row : Product) : ℝ :=
  scoreOfVals row.rating.orZero row.reviews.orZero row.price.orZero

/-- The numeric value of a field that is a number, with `0` for an
absent (`None`) or other field — the value `compute_winning_score`
effectively uses after its `or 0` defaulting. -/
def Val.qval : Val → ℚ
  | .num q => q
  | _ => 0

/-- A field that is either a number or absent (`None`). -/
def Val.isNumOrAbsent : Val → Prop
  | .num _ => True
  | .none => True
  | _ => False

theorem orZero_num (q : ℚ) : (Val.num q).orZero = Val.num q := by
  by_cases h : q = 0 <;> simp [Val.orZero, Val.truthy, h]

theorem orZero_none : Val.none.orZero = Val.num 0 := rfl

theorem orZero_numOrAbsent {v : Val} (h : v.isNumOrAbsent) :
    v.orZero = Val.num v.qval := by
  cases v with
  | num q => exact orZero_num q
  | none => rfl
  | str s => exact absurd h (by simp [Val.isNumOrAbsent])
  | dict l => exact absurd h (by simp [Val.isNumOrAbsent])
  | list l => exact absurd h (by simp [Val.isNumOrAbsent])

theorem cws_num (t l th : Val) (r rev p : ℚ) :
    compute_winning_score ⟨t, .num p, .num r, .num rev, l, th⟩ =
      if 1 + (rev : ℝ) ≤ 0 then 0
      else if (p : ℝ) + 1 = 0 then 0
      else score (r : ℝ) (rev : ℝ) (p : ℝ) := by
  show scoreOfVals (Val.num r).orZero (Val.num rev).orZero (Val.num p).orZero = _
  rw [orZero_num, orZero_num, orZero_num]
  rfl

theorem cws_num_of_nonneg (t l th : Val) (r rev p : ℚ)
    (hrev : 0 ≤ rev) (hp : 0 ≤ p) :
    compute_winning_score ⟨t, .num p, .num r, .num rev, l, th⟩ =
      score (r : ℝ) (rev : ℝ) (p : ℝ) := by
  rw [cws_num]
  have h1 : ¬ (1 + (rev : ℝ) ≤ 0) := by
    push_neg
    have : (0 : ℝ) ≤ (rev : ℚ) := by exact_mod_cast hrev
    linarith
  have h2 : (p : ℝ) + 1 ≠ 0 := by
    have : (0 : ℝ) ≤ (p : ℚ) := by exact_mod_cast hp
    linarith
  rw [if_neg h1, if_neg h2]

theorem cws_numOrAbsent (t l th vr vrev vp : Val)
    (hr : vr.isNumOrAbsent) (hrev : vrev.isNumOrAbsent) (hp : vp.isNumOrAbsent)
    (hrev0 : 0 ≤ vrev.qval) (hp0 : 0 ≤ vp.qval) :
    compute_winning_score ⟨t, vp, vr, vrev, l, th⟩ =
      score (vr.qval : ℝ) (vrev.qval : ℝ) (vp.qval : ℝ) := by
  have step : compute_winning_score ⟨t, vp, vr, vrev, l, th⟩ =
      compute_winning_score ⟨t, .num vp.qval, .num vr.qval, .num vrev.qval, l, th⟩ := by
    show scoreOfVals vr.orZero vrev.orZero vp.orZero = _
    rw [orZero_numOrAbsent hr, orZero_numOrAbsent hrev, orZero_numOrAbsent hp]
    show _ = scoreOfVals (Val.num vr.qval).orZero (Val.num vrev.qval).orZero
      (Val.num vp.qval).orZero
    rw [orZero_num, orZero_num, orZero_num]
  rw [step, cws_num_of_nonneg _ _ _ _ _ _ hrev0 hp0]

/-- C1: for every product whose rating, reviews and price fields are
each a number or absent, the computed winning score equals
`(rating * ln(1 + reviewCount)) / (price + 1)` with each field taken as
`0` when absent; in particular an absent price yields a denominator of
exactly `1`. -/
theorem C1_winning_score_formula (t l th vr vrev vp : Val)
    (hr : vr.isNumOrAbsent) (hrev : vrev.isNumOrAbsent) (hp : vp.isNumOrAbsent)
    (hrev0 : 0 ≤ vrev.qval) (hp0 : 0 ≤ vp.qval) :
    compute_winning_score ⟨t, vp, vr, vrev, l, th⟩ =
      ((vr.qval : ℝ) * Real.log (1 + (vrev.qval : ℝ))) / ((vp.qval : ℝ) + 1) ∧
    (vp = Val.none →
      compute_winning_score ⟨t, vp, vr, vrev, l, th⟩ =
        ((vr.qval : ℝ) * Real.log (1 + (vrev.qval : ℝ))) / 1) := by
  have key := cws_numOrAbsent t l th vr vrev vp hr hrev hp hrev0 hp0
  constructor
  · rw [key]; rfl
  · intro hnone
    rw [key]
    subst hnone
    simp [score, Val.qval]

theorem C1_winning_score_formula_witness :
    (compute_winning_score ⟨.str "A", Val.none, .num 4, .num 5, Val.none, Val.none⟩ =
      (((Val.num 4).qval : ℝ) * Real.log (1 + ((Val.num 5).qval : ℝ))) /
        ((Val.none.qval : ℝ) + 1) ∧
    (Val.none = Val.none →
      compute_winning_score ⟨.str "A", Val.none, .num 4, .num 5, Val.none, Val.none⟩ =
        (((Val.num 4).qval : ℝ) * Real.log (1 + ((Val.num 5).qval : ℝ))) / 1)) :=
  C1_winning_score_formula (.str "A") Val.none Val.none (.num 4) (.num 5) Val.none
    trivial trivial trivial (by norm_num [Val.qval]) (by norm_num [Val.qval])

/-- C7: a product with `reviews = 0` scores `0` whatever its rating and
price fields are, and a product with `rating = 0` scores `0` whatever
its reviews and price fields are. -/
theorem C7_zero_reviews_or_rating_gives_zero_score :
    (∀ t l th pr ra : Val,
      compute_winning_score ⟨t, pr, ra, .num 0, l, th⟩ = 0) ∧
    (∀ t l th pr rv : Val,
      compute_winning_score ⟨t, pr, .num 0, rv, l, th⟩ = 0) := by
  constructor
  · intro t l th pr ra
    show scoreOfVals ra.orZero (Val.num 0).orZero pr.orZero = 0
    rw [orZero_num]
    cases ra.orZero <;> cases pr.orZero <;>
      norm_num [scoreOfVals, score, Real.log_one]
  · intro t l th pr rv
    show scoreOfVals (Val.num 0).orZero rv.orZero pr.orZero = 0
    rw [orZero_num]
    cases rv.orZero <;> cases pr.orZero <;>
      norm_num [scoreOfVals, score]

/-- C6: with numeric fields, the winning score is monotone
non-decreasing in the review count (rating and price fixed,
nonnegative) and monotone non-increasing in the price (rating and
review count fixed, nonnegative). -/
theorem C6_score_monotonicity :
    (∀ (t l th : Val) (r p rev₁ rev₂ : ℚ), 0 ≤ r → 0 ≤ p → 0 ≤ rev₁ → rev₁ ≤ rev₂ →
      compute_winning_score ⟨t, .num p, .num r, .num rev₁, l, th⟩ ≤
        compute_winning_score ⟨t, .num p, .num r, .num rev₂, l, th⟩) ∧
    (∀ (t l th : Val) (r rev p₁ p₂ : ℚ), 0 ≤ r → 0 ≤ rev → 0 ≤ p₁ → p₁ ≤ p₂ →
      compute_winning_score ⟨t, .num p₂, .num r, .num rev, l, th⟩ ≤
        compute_winning_score ⟨t, .num p₁, .num r, .num rev, l, th⟩) := by
  constructor
  · intro t l th r p rev₁ rev₂ hr hp h1 h12
    rw [cws_num_of_nonneg _ _ _ _ _ _ h1 hp,
        cws_num_of_nonneg _ _ _ _ _ _ (h1.trans h12) hp]
    have hr' : (0 : ℝ) ≤ (r : ℚ) := by exact_mod_cast hr
    have hp' : (0 : ℝ) ≤ (p : ℚ) := by exact_mod_cast hp
    have h1' : (0 : ℝ) ≤ (rev₁ : ℚ) := by exact_mod_cast h1
    have h12' : ((rev₁ : ℚ) : ℝ) ≤ ((rev₂ : ℚ) : ℝ) := by exact_mod_cast h12
    have hc : (0 : ℝ) < (p : ℚ) + 1 := by linarith
    refine div_le_div_of_nonneg_right ?_ hc.le
    exact mul_le_mul_of_nonneg_left
      (Real.log_le_log (by linarith) (by linarith)) hr'
  · intro t l th r rev p₁ p₂ hr hrev hp1 hp12
    rw [cws_num_of_nonneg _ _ _ _ _ _ hrev hp1,
        cws_num_of_nonneg _ _ _ _ _ _ hrev (hp1.trans hp12)]
    have hr' : (0 : ℝ) ≤ (r : ℚ) := by exact_mod_cast hr
    have hrev' : (0 : ℝ) ≤ (rev : ℚ) := by exact_mod_cast hrev
    have hp1' : (0 : ℝ) ≤ (p₁ : ℚ) := by exact_mod_cast hp1
    have hp12' : ((p₁ : ℚ) : ℝ) ≤ ((p₂ : ℚ) : ℝ) := by exact_mod_cast hp12
    have hN : (0 : ℝ) ≤ (r : ℚ) * Real.log (1 + (rev : ℚ)) :=
      mul_nonneg hr' (Real.log_nonneg (by linarith))
    show ((r : ℚ) : ℝ) * Real.log (1 + (rev : ℚ)) / ((p₂ : ℚ) + 1) ≤
      ((r : ℚ) : ℝ) * Real.log (1 + (rev : ℚ)) / ((p₁ : ℚ) + 1)
    rw [div_le_div_iff₀ (by linarith) (by linarith)]
    exact mul_le_mul_of_nonneg_left (by linarith) hN

theorem C6_score_monotonicity_witness :
    (compute_winning_score ⟨Val.none, .num 10, .num 4, .num 3, Val.none, Val.none⟩ ≤
      compute_winning_score ⟨Val.none, .num 10, .num 4, .num 5, Val.none, Val.none⟩) ∧
    (compute_winning_score ⟨Val.none, .num 20, .num 4, .num 3, Val.none, Val.none⟩ ≤
      compute_winning_score ⟨Val.none, .num 10, .num 4, .num 3, Val.none, Val.none⟩) :=
  ⟨C6_score_monotonicity.1 Val.none Val.none Val.none 4 10 3 5
      (by norm_num) (by norm_num) (by norm_num) (by norm_num),
   C6_score_monotonicity.2 Val.none Val.none Val.none 4 3 10 20
      (by norm_num) (by norm_num) (by norm_num) (by norm_num)⟩

theorem normalize_item_dict_eq (l pl : List (String × Val))
    (hpl : dictGet l "price" (.dict []) = .dict pl) :
    normalize_item (.dict l) =
      if ((dictGet l "title" Val.none).truthy &&
          (dictGet pl "value" (.num 0)).truthy) = true then
        .ok (some ⟨dictGet l "title" Val.none, dictGet pl "value" (.num 0),
          dictGet l "rating" (.num 0), dictGet l "reviews" (.num 0),
          dictGet l "link" Val.none, dictGet l "image" (.str "")⟩)
      else .ok Option.none := by
  simp only [normalize_item, hpl]

theorem normalize_item_not_dict_price (l : List (String × Val))
    (h : ∀ pl : List (String × Val), dictGet l "price" (.dict []) ≠ .dict pl) :
    normalize_item (.dict l) = .error PyErr.attributeError := by
  cases hpl : dictGet l "price" (.dict []) with
  | none => simp only [normalize_item, hpl]
  | num q => simp only [normalize_item, hpl]
  | str s => simp only [normalize_item, hpl]
  | list xs => simp only [normalize_item, hpl]
  | dict pl => exact absurd hpl (h pl)

/-- C2 counterexample: the code has no 100,000 threshold.  The raw
price `{value: 149900}` normalizes to the number `149900`, not to
`1499`, contradicting the claimed minor-unit division. -/
theorem C2_threshold_division_counterexample :
    normalize_item (.dict [("title", .str "A"),
        ("price", .dict [("value", .num 149900)])]) =
      .ok (some ⟨.str "A", .num 149900, .num 0, .num 0, Val.none, .str ""⟩) ∧
    (149900 : ℚ) ≠ 1499 :=
  ⟨rfl, by norm_num⟩

/-- C2 amended: normalization uses the numeric `value` of a structured
price directly, with no magnitude threshold and no division by 100:
`{value: q}` always normalizes to the number `q` (here for a record
with a non-empty title and a nonzero price, so that it is kept). -/
theorem C2_price_value_passthrough (s : String) (q : ℚ)
    (hs : s ≠ "") (hq : q ≠ 0) :
    normalize_item (.dict [("title", .str s),
        ("price", .dict [("value", .num q)])]) =
      .ok (some ⟨.str s, .num q, .num 0, .num 0, Val.none, .str ""⟩) := by
  simp [normalize_item, dictGet, List.find?, Val.truthy, hs, hq]

theorem C2_price_value_passthrough_witness :
    normalize_item (.dict [("title", .str "A"),
        ("price", .dict [("value", .num 149900)])]) =
      .ok (some ⟨.str "A", .num 149900, .num 0, .num 0, Val.none, .str ""⟩) ∧
    normalize_item (.dict [("title", .str "A"),
        ("price", .dict [("value", .num 1499)])]) =
      .ok (some ⟨.str "A", .num 1499, .num 0, .num 0, Val.none, .str ""⟩) :=
  ⟨C2_price_value_passthrough "A" 149900 (by decide) (by norm_num),
   C2_price_value_passthrough "A" 1499 (by decide) (by norm_num)⟩

/-- C3 counterexample: a record with the non-empty title `"A"` but no
price field is dropped by the `if title and price` filter, so a
non-empty title does not suffice for the record to survive. -/
theorem C3_nonempty_title_dropped_counterexample :
    normalize_item (.dict [("title", .str "A")]) = .ok Option.none ∧
    (Val.str "A").truthy = true :=
  ⟨rfl, rfl⟩

/-- C3 amended: for a record whose price field has the expected dict
shape, a product is produced exactly when both the title and the
extracted price (defaulted to `0`) are truthy; a missing or zero price
excludes the record just as a missing or empty title does. -/
theorem C3_inclusion_iff_title_and_price (l pl : List (String × Val))
    (hpl : dictGet l "price" (.dict []) = .dict pl) :
    (∃ p, normalize_item (.dict l) = .ok (some p)) ↔
      ((dictGet l "title" Val.none).truthy &&
       (dictGet pl "value" (.num 0)).truthy) = true := by
  simp only [normalize_item, hpl]
  cases hc : ((dictGet l "title" Val.none).truthy &&
      (dictGet pl "value" (.num 0)).truthy) <;> simp [hc]

theorem C3_inclusion_iff_title_and_price_witness :
    (∃ p, normalize_item (.dict [("title", .str "A"),
        ("price", .dict [("value", .num 5)])]) = .ok (some p)) ↔
      ((dictGet [("title", .str "A"), ("price", .dict [("value", .num 5)])]
          "title" Val.none).truthy &&
       (dictGet [("value", .num 5)] "value" (.num 0)).truthy) = true :=
  C3_inclusion_iff_title_and_price
    [("title", .str "A"), ("price", .dict [("value", .num 5)])]
    [("value", .num 5)] rfl

/-- C4 counterexample: a record whose price field is a bare number
raises `AttributeError` from `price_info.get("value", 0)`; the
exception is not absorbed inside the normalization loop. -/
theorem C4_bare_number_price_raises_counterexample :
    normalize_item (.dict [("title", .str "A"), ("price", .num 5)]) =
      .error PyErr.attributeError :=
  rfl

/-- C4 amended: normalization of a single record does not raise
provided the record is a mapping whose price field, when present and
non-null, is itself a mapping; only a price of a non-dict shape (null,
bare number, string, list) makes the per-record processing raise. -/
theorem C4_no_raise_for_dict_price (l pl : List (String × Val))
    (hpl : dictGet l "price" (.dict []) = .dict pl) :
    ∃ r, normalize_item (.dict l) = .ok r := by
  simp only [normalize_item, hpl]
  cases hc : ((dictGet l "title" Val.none).truthy &&
      (dictGet pl "value" (.num 0)).truthy) <;> simp [hc]

theorem C4_no_raise_for_dict_price_witness :
    ∃ r, normalize_item (.dict [("price", .dict [])]) = .ok r :=
  C4_no_raise_for_dict_price [("price", .dict [])] [] rfl

/-- C8 counterexample: for a raw record with no price field, the
extracted price is the number `0` — not an absent value — and the
record is then dropped by the filter, so no product with an absent
price is ever produced. -/
theorem C8_absent_price_zero_counterexample :
    extractPrice (.dict [("title", .str "B")]) = .ok (.num 0) ∧
    Val.num 0 ≠ Val.none ∧
    normalize_item (.dict [("title", .str "B")]) = .ok Option.none :=
  ⟨rfl, fun h => Val.noConfusion h, rfl⟩

/-- C8 amended: when the raw price field is absent the code substitutes
the number `0` for it (price absent is not represented distinctly from
a zero price), and the record is consequently filtered out of the
normalized collection. -/
theorem C8_absent_price_defaults_zero (l : List (String × Val))
    (h : l.find? (fun kv => kv.1 == "price") = Option.none) :
    extractPrice (.dict l) = .ok (.num 0) ∧
    normalize_item (.dict l) = .ok Option.none := by
  have hd : dictGet l "price" (.dict []) = .dict [] := by
    simp [dictGet, h]
  constructor
  · simp only [extractPrice, hd]
    rfl
  · rw [normalize_item_dict_eq l [] hd]
    simp [dictGet, Val.truthy]

theorem C8_absent_price_defaults_zero_witness :
    extractPrice (.dict [("title", .str "W")]) = .ok (.num 0) ∧
    normalize_item (.dict [("title", .str "W")]) = .ok Option.none :=
  C8_absent_price_defaults_zero [("title", .str "W")] rfl

/-- C9 counterexample: a raw rating of `7` — outside the claimed range
[0, 5] — is copied into the normalized product unchanged instead of
being replaced by `0`. -/
theorem C9_out_of_range_rating_counterexample :
    normalize_item (.dict [("title", .str "A"),
        ("price", .dict [("value", .num 10)]), ("rating", .num 7)]) =
      .ok (some ⟨.str "A", .num 10, .num 7, .num 0, Val.none, .str ""⟩) ∧
    ¬ ((7 : ℚ) ≤ 5) :=
  ⟨rfl, by norm_num⟩

/-- C9 amended: the rating and reviews fields of a surviving product
are the raw field values copied through verbatim, with the number `0`
only when the field is absent; no parsing, range check or clamping is
performed. -/
theorem C9_rating_reviews_passthrough (l : List (String × Val)) (p : Product)
    (h : normalize_item (.dict l) = .ok (some p)) :
    p.rating = dictGet l "rating" (.num 0) ∧
    p.reviews = dictGet l "reviews" (.num 0) := by
  cases hpl : dictGet l "price" (.dict []) with
  | dict pl =>
    rw [normalize_item_dict_eq l pl hpl] at h
    split at h
    · injection h with h
      injection h with h
      subst h
      exact ⟨rfl, rfl⟩
    · injection h with h
      exact Option.noConfusion h
  | none =>
    rw [normalize_item_not_dict_price l
      (fun pl hq => by rw [hpl] at hq; exact Val.noConfusion hq)] at h
    exact Except.noConfusion h
  | num q =>
    rw [normalize_item_not_dict_price l
      (fun pl hq => by rw [hpl] at hq; exact Val.noConfusion hq)] at h
    exact Except.noConfusion h
  | str s =>
    rw [normalize_item_not_dict_price l
      (fun pl hq => by rw [hpl] at hq; exact Val.noConfusion hq)] at h
    exact Except.noConfusion h
  | list xs =>
    rw [normalize_item_not_dict_price l
      (fun pl hq => by rw [hpl] at hq; exact Val.noConfusion hq)] at h
    exact Except.noConfusion h

theorem C9_rating_reviews_passthrough_witness :
    (⟨.str "A", .num 10, .num 7, .num 3, Val.none, .str ""⟩ : Product).rating =
      dictGet [("title", .str "A"), ("price", .dict [("value", .num 10)]),
        ("rating", .num 7), ("reviews", .num 3)] "rating" (.num 0) ∧
    (⟨.str "A", .num 10, .num 7, .num 3, Val.none, .str ""⟩ : Product).reviews =
      dictGet [("title", .str "A"), ("price", .dict [("value", .num 10)]),
        ("rating", .num 7), ("reviews", .num 3)] "reviews" (.num 0) :=
  C9_rating_reviews_passthrough
    [("title", .str "A"), ("price", .dict [("value", .num 10)]),
      ("rating", .num 7), ("reviews", .num 3)]
    ⟨.str "A", .num 10, .num 7, .num 3, Val.none, .str ""⟩ rfl

theorem normalize_item_kept {i : Val} {p : Product}
    (h : normalize_item i = .ok (some p)) :
    p.title.truthy = true ∧ p.price.truthy = true := by
  cases i with
  | none => exact Except.noConfusion h
  | num q => exact Except.noConfusion h
  | str s => exact Except.noConfusion h
  | list xs => exact Except.noConfusion h
  | dict l =>
    cases hpl : dictGet l "price" (.dict []) with
    | dict pl =>
      rw [normalize_item_dict_eq l pl hpl] at h
      split at h
      · rename_i hc
        rw [Bool.and_eq_true] at hc
        injection h with h
        injection h with h
        subst h
        exact hc
      · injection h with h
        exact Option.noConfusion h
    | none =>
      rw [normalize_item_not_dict_price l
        (fun pl hq => by rw [hpl] at hq; exact Val.noConfusion hq)] at h
      exact Except.noConfusion h
    | num q =>
      rw [normalize_item_not_dict_price l
        (fun pl hq => by rw [hpl] at hq; exact Val.noConfusion hq)] at h
      exact Except.noConfusion h
    | str s =>
      rw [normalize_item_not_dict_price l
        (fun pl hq => by rw [hpl] at hq; exact Val.noConfusion hq)] at h
      exact Except.noConfusion h
    | list xs =>
      rw [normalize_item_not_dict_price l
        (fun pl hq => by rw [hpl] at hq; exact Val.noConfusion hq)] at h
      exact Except.noConfusion h

theorem normalize_all_kept : ∀ {l : List Val} {ps : List Product},
    normalize_all l = .ok ps →
    ∀ p ∈ ps, p.title.truthy = true ∧ p.price.truthy = true := by
  intro l
  induction l with
  | nil =>
    intro ps h p hp
    injection h with h
    subst h
    exact absurd hp (List.not_mem_nil p)
  | cons i rest ih =>
    intro ps h p hp
    simp only [normalize_all] at h
    cases hi : normalize_item i with
    | error e =>
      rw [hi] at h
      exact Except.noConfusion h
    | ok q? =>
      cases hr : normalize_all rest with
      | error e =>
        rw [hi, hr] at h
        cases q? with
        | none => exact Except.noConfusion h
        | some q => exact Except.noConfusion h
      | ok qs =>
        rw [hi, hr] at h
        cases q? with
        | none =>
          injection h with h
          subst h
          exact ih hr p hp
        | some q =>
          injection h with h
          subst h
          rcases List.mem_cons.mp hp with hq | hq
          · subst hq
            exact normalize_item_kept hi
          · exact ih hr p hq

/-- C10: every product in a collection successfully returned by
`get_live_data` has a truthy (present, non-empty) title and a truthy
(present, nonzero) price: records failing either condition are filtered
out before ranking. -/
theorem C10_kept_products_truthy_title_price
    (items : List Val) (n : Nat) (ps : List Product)
    (h : get_live_data items n = .ok ps) :
    ∀ p ∈ ps, p.title.truthy = true ∧ p.price.truthy = true :=
  normalize_all_kept h

theorem C10_kept_products_truthy_title_price_witness :
    (⟨.str "X", .num 7, .num 0, .num 0, Val.none, .str ""⟩ : Product).title.truthy
        = true ∧
    (⟨.str "X", .num 7, .num 0, .num 0, Val.none, .str ""⟩ : Product).price.truthy
        = true :=
  C10_kept_products_truthy_title_price
    [.dict [("title", .str "X"), ("price", .dict [("value", .num 7)])]] 5
    [⟨.str "X", .num 7, .num 0, .num 0, Val.none, .str ""⟩] rfl
    ⟨.str "X", .num 7, .num 0, .num 0, Val.none, .str ""⟩ (List.Mem.head _)
